import Mathlib

/-!
Shallow embedding of the RPC access layer of the SolGOGO backend
(`backend/main.go`): the Retry-After header parsing, the retrying caller,
the per-method rate limiting as it interacts with the retry loop, the
TTL cache, the block-time estimator and the derived-metrics arithmetic.

Durations and absolute times are modelled in nanoseconds as `Int`
(Go's `time.Duration` is an `int64`; where int64 overflow can occur in the
source, the multiplication is wrapped explicitly with `wrap64`).
Go `float64` arithmetic on the sample/metrics path is modelled with `Rat`;
every comparison the source performs on these values is exact at the
constants involved, so the rational model agrees with the float one there.
-/

deriving instance DecidableEq for Except

namespace SolGOGO

/-- Nanoseconds in one second (`time.Second`). -/
def nsPerSecond : Int := 1000000000

/-- Nanoseconds in five minutes (`5 * time.Minute`). -/
def fiveMinutesNs : Int := 300 * nsPerSecond

/-- Two's-complement wrap-around of an integer into the `int64` range,
as Go's defined signed-overflow behaviour produces. -/
def wrap64 (n : Int) : Int := (n + 2 ^ 63) % 2 ^ 64 - 2 ^ 63

/-- Accumulates decimal digits; fails on the first non-digit character. -/
def digitsToNatAux : List Char → Nat → Option Nat
  | [], acc => some acc
  | c :: cs, acc =>
    if c.isDigit then digitsToNatAux cs (acc * 10 + (c.toNat - 48)) else none

/-- A non-empty all-digit character list as a natural number. -/
def digitsToNat : List Char → Option Nat
  | [] => none
  | cs => digitsToNatAux cs 0

/-- Model of Go's `strconv.Atoi` on a 64-bit platform: an optional sign
followed by at least one decimal digit, rejected when the value falls
outside the `int64` range (`strconv.ErrRange`). -/
def goAtoi (s : String) : Option Int :=
  match s.data with
  | '+' :: rest =>
    (digitsToNat rest).bind fun n =>
      if (n : Int) ≤ 2 ^ 63 - 1 then some (n : Int) else none
  | '-' :: rest =>
    (digitsToNat rest).bind fun n =>
      if (n : Int) ≤ 2 ^ 63 then some (-(n : Int)) else none
  | cs =>
    (digitsToNat cs).bind fun n =>
      if (n : Int) ≤ 2 ^ 63 - 1 then some (n : Int) else none

/-- The date layouts `parseRetryAfter` tries: `time.RFC1123` first, then
the fallback list `[time.RFC822, time.RFC822Z, time.RFC850, time.RFC3339]`. -/
inductive DateFormat
  | rfc1123
  | rfc822
  | rfc822z
  | rfc850
  | rfc3339
deriving DecidableEq, Repr

/-- The fallback format list of `parseRetryAfter`. -/
def fallbackFormats : List DateFormat :=
  [.rfc822, .rfc822z, .rfc850, .rfc3339]

/-- A date-parsing oracle standing for `time.Parse`: for a layout and an
input string, either the parsed absolute time in nanoseconds or a parse
failure. The calendar arithmetic itself is outside the embedded program. -/
def DateOracle : Type := DateFormat → String → Option Int

/-- The date oracle under which no string parses in any layout. -/
def noDateParses : DateOracle := fun _ _ => none

/-- The fallback loop of `parseRetryAfter`: try each layout in order and
accept the first whose wait `t - now` is strictly positive and at most
five minutes; otherwise fail with the source's error message. -/
def tryFormats (parseDate : DateOracle) (now : Int) (retryAfter : String) :
    List DateFormat → Except String Int
  | [] => .error ("unable to parse Retry-After header: " ++ retryAfter)
  | f :: rest =>
    match parseDate f retryAfter with
    | some t =>
      let duration := t - now
      if 0 < duration ∧ duration ≤ fiveMinutesNs then .ok duration
      else tryFormats parseDate now retryAfter rest
    | none => tryFormats parseDate now retryAfter rest

/-- Embedding of `parseRetryAfter` (`backend/main.go`): first a plain
integer number of seconds — converted with the source's
`time.Duration(seconds) * time.Second` int64 multiplication, hence
wrapped — and clamped to at most five minutes with no lower check; then
`time.RFC1123`; then the fallback layouts, each date accepted only when
the wait is strictly positive and at most five minutes. -/
def parseRetryAfter (parseDate : DateOracle) (now : Int) (retryAfter : String) :
    Except String Int :=
  match goAtoi retryAfter with
  | some seconds =>
    let duration := wrap64 (seconds * nsPerSecond)
    if duration > fiveMinutesNs then .ok fiveMinutesNs else .ok duration
  | none =>
    match parseDate .rfc1123 retryAfter with
    | some t =>
      let duration := t - now
      if 0 < duration ∧ duration ≤ fiveMinutesNs then .ok duration
      else tryFormats parseDate now retryAfter fallbackFormats
    | none => tryFormats parseDate now retryAfter fallbackFormats

/-! ### The JSON-RPC response envelope and the retrying caller -/

/-- The decoded `Error` field of an `RPCResponse`: absent (`nil`), present
but not a JSON object (so the `map[string]interface{}` assertion fails), or
an object carrying an optional numeric `code` (`none` also stands for a
non-numeric code, which the source's `code == float64(429)` test rejects)
and the optional `retryAfter` string the transport attached. -/
inductive RPCErrorField
  | absent
  | nonObject
  | obj (code : Option Rat) (retryAfter : Option String)
deriving DecidableEq, Repr

/-- The decoded JSON-RPC envelope; the `Result` payload is opaque to the
retry logic and modelled as an optional string. -/
structure RPCResponse where
  Result : Option String
  Error : RPCErrorField
deriving DecidableEq, Repr

/-- Whether a response carries a JSON-RPC error object with numeric
code 429 — exactly the condition under which `makeRPCCallWithRetry`
enters its throttling branch. -/
def is429 (resp : RPCResponse) : Bool :=
  match resp.Error with
  | .obj code _ => decide (code = some (429 : Rat))
  | _ => false

/-- The `retryAfter` annotation on a 429 error object, when present. -/
def retryAfterHint (resp : RPCResponse) : Option String :=
  match resp.Error with
  | .obj _ ra => ra
  | _ => none

/-- The retry budget `maxRetries := 3` of `makeRPCCallWithRetry`. -/
def maxRetries : Nat := 3

/-- The base backoff delay `baseDelay := 1 * time.Second` in nanoseconds. -/
def baseDelayNs : Int := nsPerSecond

/-- The exponential backoff `time.Duration(float64(baseDelay) *
math.Pow(2, float64(e)))`; exact in `Int` for the exponents the loop uses. -/
def expBackoffNs (e : Nat) : Int := baseDelayNs * 2 ^ e

/-- What `makeRPCCall` produced for one dispatched attempt: a
transport-level failure (`nil, err`) or a decoded response. -/
inductive DispatchOutcome
  | failure (msg : String)
  | response (resp : RPCResponse)
deriving DecidableEq, Repr

/-- What one loop iteration observes: `blocked` when `checkRateLimit`
returned false, otherwise the outcome of the dispatched `makeRPCCall`. -/
inductive IterInput
  | blocked
  | dispatched (outcome : DispatchOutcome)
deriving DecidableEq, Repr

/-- An execution environment for the retry loop: the observation made at
each attempt index (the loop variable `attempt`, which advances on every
iteration). -/
def RetryEnv : Type := Nat → IterInput

/-- The value `makeRPCCallWithRetry` returns: `(resp, nil)`,
`(nil, err)` with the last transport error, or the final
`max retries exceeded` error. -/
inductive RetryResult
  | success (resp : RPCResponse)
  | transportFailure (msg : String)
  | maxRetriesExceeded
deriving DecidableEq, Repr

/-- The observable side effects of the retry loop, in order: the fixed
2-second rate-limit cooldown sleep, a dispatch through the transport, and
a backoff sleep of the given number of nanoseconds. -/
inductive RetryEvent
  | rateLimitSleep (ns : Int)
  | dispatch
  | backoffSleep (ns : Int)
deriving DecidableEq, Repr

/-- The loop body of `makeRPCCallWithRetry`, unrolled on the fuel
`maxRetries - attempt`: Go's `continue` statements all run the loop's
post statement, so `attempt` increases by one on every iteration,
including rate-limited ones. Falling off the loop yields
`maxRetriesExceeded`. Returns the result paired with the event trace. -/
def retryAux (parseDate : DateOracle) (now : Int) (env : RetryEnv) :
    Nat → Nat → RetryResult × List RetryEvent
  | 0, _ => (.maxRetriesExceeded, [])
  | fuel + 1, attempt =>
    match env attempt with
    | .blocked =>
      let rest := retryAux parseDate now env fuel (attempt + 1)
      (rest.1, .rateLimitSleep (2 * nsPerSecond) :: rest.2)
    | .dispatched (.failure msg) =>
      if attempt = maxRetries - 1 then (.transportFailure msg, [.dispatch])
      else
        let rest := retryAux parseDate now env fuel (attempt + 1)
        (rest.1, .dispatch :: .backoffSleep (expBackoffNs attempt) :: rest.2)
    | .dispatched (.response resp) =>
      if is429 resp then
        if attempt = maxRetries - 1 then (.success resp, [.dispatch])
        else
          let delay :=
            match retryAfterHint resp with
            | some ra =>
              match parseRetryAfter parseDate now ra with
              | .ok d => d
              | .error _ => expBackoffNs (attempt + 1)
            | none => expBackoffNs (attempt + 1)
          let rest := retryAux parseDate now env fuel (attempt + 1)
          (rest.1, .dispatch :: .backoffSleep delay :: rest.2)
      else (.success resp, [.dispatch])

/-- Embedding of `makeRPCCallWithRetry` (`backend/main.go`): run the loop
from `attempt = 0` with the full budget. -/
def makeRPCCallWithRetry (parseDate : DateOracle) (now : Int) (env : RetryEnv) :
    RetryResult × List RetryEvent :=
  retryAux parseDate now env maxRetries 0

/-- Recognizes a dispatch event. -/
def isDispatchEvent : RetryEvent → Bool
  | .dispatch => true
  | _ => false

/-- Recognizes a rate-limit cooldown sleep. -/
def isRateLimitSleepEvent : RetryEvent → Bool
  | .rateLimitSleep _ => true
  | _ => false

/-- How many iterations of a trace dispatched through the transport. -/
def dispatchCount (evs : List RetryEvent) : Nat := evs.countP isDispatchEvent

/-- How many iterations of a trace were skipped by the rate limiter. -/
def rateLimitSkipCount (evs : List RetryEvent) : Nat :=
  evs.countP isRateLimitSleepEvent

/-- A 429 response with no `retryAfter` annotation. -/
def resp429noHint : RPCResponse := ⟨none, .obj (some 429) none⟩

/-- Environment whose first iteration is rate-limited and whose later
iterations all dispatch and fail at transport level. -/
def envBlockedThenFailures : RetryEnv := fun i =>
  if i = 0 then .blocked else .dispatched (.failure ("boom"))

/-- Environment where every iteration is blocked by the rate limiter. -/
def envAllBlocked : RetryEnv := fun _ => .blocked

example :
    makeRPCCallWithRetry noDateParses 0 envBlockedThenFailures =
      (.transportFailure ("boom"),
        [.rateLimitSleep (2 * nsPerSecond), .dispatch,
         .backoffSleep (expBackoffNs 1), .dispatch]) := by decide

example :
    (makeRPCCallWithRetry noDateParses 0 envAllBlocked).1 =
      .maxRetriesExceeded := by decide

/-! ### The TTL cache -/

/-- A cache entry: stored payload and absolute expiry time (nanoseconds). -/
structure CacheEntry (α : Type) where
  Data : α
  ExpiresAt : Int
deriving DecidableEq, Repr

/-- The cache map, one entry per key. -/
def CacheState (α : Type) : Type := String → Option (CacheEntry α)

/-- The cache before any `setCache`. -/
def emptyCache (α : Type) : CacheState α := fun _ => none

/-- Embedding of `setCache`: store the value with expiry `now + duration`,
unconditionally overwriting any existing entry for the key. -/
def setCache (st : CacheState α) (now : Int) (key : String) (data : α)
    (duration : Int) : CacheState α :=
  fun k => if k = key then some ⟨data, now + duration⟩ else st k

/-- Embedding of `getFromCache`: `none` models the source's `(nil, false)`
and `some v` its `(entry.Data, true)`. The entry is rejected when it is
absent or when `time.Now().After(entry.ExpiresAt)` — a strict comparison —
holds. -/
def getFromCache (st : CacheState α) (now : Int) (key : String) : Option α :=
  match st key with
  | none => none
  | some entry => if now > entry.ExpiresAt then none else some entry.Data

/-! ### The block-time estimator -/

/-- The shared block-time state: `lastBlockTime` in seconds (`Rat` for
the source's `float64`) and `lastBlockTimeCheck` as an absolute time. -/
structure BTState where
  lastBlockTime : Rat
  lastBlockTimeCheck : Int
deriving DecidableEq, Repr

/-- The state `NewSolanaClient` constructs: 0.4 seconds and the zero
time. -/
def initialBlockTimeState : BTState := ⟨2 / 5, 0⟩

/-- One sampling run's observations: the two `GetSlot` results (`none`
for an error) and the wall-clock time of the run's completion. -/
structure SlotSample where
  firstSlot : Option Nat
  secondSlot : Option Nat
  sampledAt : Int
deriving DecidableEq, Repr

/-- The plausibility band `0.1 ≤ x ≤ 2.0` the estimator accepts. -/
def plausibleBand (x : Rat) : Prop := 1 / 10 ≤ x ∧ x ≤ 2

instance (x : Rat) : Decidable (plausibleBand x) := by
  unfold plausibleBand; infer_instance

/-- Embedding of `updateBlockTimeInBackground`: abort on either `GetSlot`
error, discard when the second height did not advance past the first,
compute `3.0 / slotDifference` seconds per block, and publish it only
when it lies in the plausibility band; otherwise leave the state as it
was. -/
def updateBlockTimeInBackground (st : BTState) (smp : SlotSample) : BTState :=
  match smp.firstSlot with
  | none => st
  | some currentSlot =>
    match smp.secondSlot with
    | none => st
    | some laterSlot =>
      if laterSlot ≤ currentSlot then st
      else
        let slotDifference : Rat := ((laterSlot - currentSlot : Nat) : Rat)
        let timeDifference : Rat := 3
        let blockTime := timeDifference / slotDifference
        if plausibleBand blockTime then ⟨blockTime, smp.sampledAt⟩ else st

/-! ### The metrics arithmetic -/

/-- One performance sample as the TPS aggregation sees it: the
`numTransactions` and `samplePeriodSecs` fields, `none` when the field is
missing or not a JSON number (the source's type assertions fail then). -/
structure PerfSample where
  numTransactions : Option Rat
  samplePeriodSecs : Option Rat
deriving DecidableEq, Repr

/-- Embedding of `calculateTPS`: 0 for the empty window; otherwise sum
`numTransactions / samplePeriodSecs` over the samples where both fields
are numeric and the period is positive, and divide by the length of the
whole sample list. -/
def calculateTPS (samples : List PerfSample) : Rat :=
  if samples.length = 0 then 0
  else
    let totalTPS := samples.foldl
      (fun acc s =>
        match s.numTransactions, s.samplePeriodSecs with
        | some tx, some p => if p > 0 then acc + tx / p else acc
        | _, _ => acc)
      0
    totalTPS / (samples.length : Rat)

/-- The rate one sample contributes to the sum inside `calculateTPS`:
`tx / period` when both fields are numeric and the period is positive,
0 otherwise. -/
def sampleRate (s : PerfSample) : Rat :=
  match s.numTransactions, s.samplePeriodSecs with
  | some tx, some p => if p > 0 then tx / p else 0
  | _, _ => 0

/-- Modelled from the spec's words, for comparison with `calculateTPS`:
the average of the per-sample rates over only the samples that
contributed a valid rate (0 when no sample contributes, via `Rat`
division by zero). -/
def calculateTPSSpecReading (samples : List PerfSample) : Rat :=
  let contributing := samples.filter fun s =>
    match s.numTransactions, s.samplePeriodSecs with
    | some _, some p => p > 0
    | _, _ => false
  (contributing.map sampleRate).sum / (contributing.length : Rat)

/-- Embedding of the epoch-progress computation in the `/api/metrics`
handler: `(slotIndex / slotsInEpoch) * 100` guarded by
`slotsInEpoch > 0`, else 0. -/
def epochProgress (slotIndex slotsInEpoch : Rat) : Rat :=
  if slotsInEpoch > 0 then slotIndex / slotsInEpoch * 100 else 0

/-- Embedding of the health-classification chain in the `/api/metrics`
handler, first matching rule winning. -/
def networkHealth (tps : Rat) (validatorCount : Int) : String :=
  if tps > 100 ∧ validatorCount > 1000 then "Healthy"
  else if tps > 50 ∧ validatorCount > 500 then "Good"
  else if tps > 10 then "Fair"
  else "Poor"

example : calculateTPS [⟨some 100, some 10⟩, ⟨some 50, some 5⟩] = 10 := by
  norm_num [calculateTPS]

example : calculateTPS [⟨some 100, some 10⟩, ⟨some 50, some 0⟩] = 5 := by
  norm_num [calculateTPS]

example : calculateTPSSpecReading [⟨some 100, some 10⟩, ⟨some 50, some 0⟩] = 10 := by
  norm_num [calculateTPSSpecReading, sampleRate, List.filter]

example : epochProgress 25 100 = 25 := by norm_num [epochProgress]
example : networkHealth 60 600 = "Good" := by norm_num [networkHealth]
example :
    updateBlockTimeInBackground initialBlockTimeState ⟨some 0, some 1, 7⟩ =
      initialBlockTimeState := by
  norm_num [updateBlockTimeInBackground, plausibleBand]

example : goAtoi "120" = some 120 := by decide
example : goAtoi "-5" = some (-5) := by decide
example : goAtoi "" = none := by decide
example : goAtoi "12a" = none := by decide
example : parseRetryAfter noDateParses 0 "120" = .ok (120 * nsPerSecond) := by decide
example : parseRetryAfter noDateParses 0 "400" = .ok fiveMinutesNs := by decide
example : parseRetryAfter noDateParses 0 "x" =
    .error ("unable to parse Retry-After header: x") := by decide

/-! ### Helper lemmas -/

/-- One step of the `calculateTPS` fold adds exactly `sampleRate s`. -/
lemma tpsFoldStep (acc : Rat) (s : PerfSample) :
    (match s.numTransactions, s.samplePeriodSecs with
      | some tx, some p => if p > 0 then acc + tx / p else acc
      | _, _ => acc) = acc + sampleRate s := by
  unfold sampleRate
  rcases s with ⟨tx, p⟩
  cases tx with
  | none => simp
  | some tx =>
    cases p with
    | none => simp
    | some p =>
      by_cases hp : p > 0
      · simp [hp]
      · simp [hp]

/-- The `calculateTPS` fold equals the sum of the per-sample rates. -/
lemma tpsFoldEqSum (samples : List PerfSample) (acc : Rat) :
    samples.foldl
      (fun acc s =>
        match s.numTransactions, s.samplePeriodSecs with
        | some tx, some p => if p > 0 then acc + tx / p else acc
        | _, _ => acc)
      acc = acc + (samples.map sampleRate).sum := by
  induction samples generalizing acc with
  | nil => simp
  | cons s rest ih =>
    simp only [List.foldl_cons, List.map_cons, List.sum_cons]
    rw [tpsFoldStep, ih, add_assoc]

/-! ### Claim theorems -/

/-- C2 (counterexample): `calculateTPS` does not average over only the
samples that contributed a valid rate. On `[{tx:100, period:10},
{tx:50, period:0}]` only the first sample contributes, so the claimed
average is 10, but the source divides the sum 10 by the total sample
count 2 and returns 5. -/
theorem calculateTPS_denominator_counterexample :
    calculateTPS [⟨some 100, some 10⟩, ⟨some 50, some 0⟩] = 5 ∧
    calculateTPSSpecReading [⟨some 100, some 10⟩, ⟨some 50, some 0⟩] = 10 ∧
    (5 : Rat) ≠ 10 := by
  refine ⟨by norm_num [calculateTPS], ?_, by norm_num⟩
  norm_num [calculateTPSSpecReading, sampleRate, List.filter]

/-- C2 (amended): `calculateTPS` sums `tx / period` over the samples with
numeric fields and positive period but divides by the length of the whole
sample list; the empty window yields 0, and the all-valid two-sample
example still yields 10. -/
theorem calculateTPS_sum_over_total_length :
    calculateTPS [] = 0 ∧
    calculateTPS [⟨some 100, some 10⟩, ⟨some 50, some 5⟩] = 10 ∧
    ∀ samples : List PerfSample, samples ≠ [] →
      calculateTPS samples = (samples.map sampleRate).sum / (samples.length : Rat) := by
  refine ⟨by norm_num [calculateTPS], by norm_num [calculateTPS], ?_⟩
  intro samples hne
  unfold calculateTPS
  rw [if_neg (by simpa using hne)]
  rw [tpsFoldEqSum, zero_add]

/-- C2 (witness for the amended theorem): a singleton window evaluates to
its only sample's rate divided by 1. -/
theorem calculateTPS_sum_over_total_length_witness :
    calculateTPS [⟨some 8, some 2⟩] =
      (([⟨some 8, some 2⟩] : List PerfSample).map sampleRate).sum /
        (([⟨some 8, some 2⟩] : List PerfSample).length : Rat) :=
  calculateTPS_sum_over_total_length.2.2 [⟨some 8, some 2⟩] (by decide)

/-- C8: the metrics handler's epoch progress is `(slotIndex /
slotsInEpoch) * 100` exactly when `slotsInEpoch` is positive — stated
multiplicatively so no division appears in the characterization — and 0
for a zero or negative `slotsInEpoch`, so the division is never evaluated
with a non-positive divisor; `slotIndex = 25, slotsInEpoch = 100` gives
25. -/
theorem epochProgress_guarded_division :
    epochProgress 25 100 = 25 ∧
    (∀ si : Rat, epochProgress si 0 = 0) ∧
    (∀ si se : Rat, se ≤ 0 → epochProgress si se = 0) ∧
    (∀ si se : Rat, 0 < se → epochProgress si se * se = si * 100) := by
  refine ⟨by norm_num [epochProgress], fun si => by norm_num [epochProgress],
    fun si se h => ?_, fun si se h => ?_⟩
  · rw [epochProgress, if_neg (not_lt.mpr h)]
  · rw [epochProgress, if_pos h]
    field_simp

/-- C8 (witness): the guard at a negative divisor and the positive-case
characterization at the spec's example. -/
theorem epochProgress_guarded_division_witness :
    epochProgress 7 (-3) = 0 ∧ epochProgress 25 100 * 100 = 25 * 100 :=
  ⟨epochProgress_guarded_division.2.2.1 7 (-3) (by decide),
   epochProgress_guarded_division.2.2.2 25 100 (by decide)⟩

/-- C9: the health classification evaluates its rules in order with the
first match winning: TPS > 100 and validators > 1000 give "Healthy";
otherwise TPS > 50 and validators > 500 give "Good"; otherwise TPS > 10
gives "Fair"; otherwise "Poor" — together with the spec's four boundary
examples. -/
theorem networkHealth_first_match_wins :
    networkHealth 101 1001 = "Healthy" ∧
    networkHealth 60 600 = "Good" ∧
    networkHealth 11 10 = "Fair" ∧
    (∀ v : Int, networkHealth 5 v = "Poor") ∧
    (∀ (tps : Rat) (v : Int), tps > 100 → v > 1000 →
      networkHealth tps v = "Healthy") ∧
    (∀ (tps : Rat) (v : Int), ¬(tps > 100 ∧ v > 1000) → tps > 50 → v > 500 →
      networkHealth tps v = "Good") ∧
    (∀ (tps : Rat) (v : Int), ¬(tps > 100 ∧ v > 1000) → ¬(tps > 50 ∧ v > 500) →
      tps > 10 → networkHealth tps v = "Fair") ∧
    (∀ (tps : Rat) (v : Int), tps ≤ 10 → networkHealth tps v = "Poor") := by
  refine ⟨by norm_num [networkHealth], by norm_num [networkHealth],
    by norm_num [networkHealth], fun v => ?_, fun tps v h1 h2 => ?_,
    fun tps v hn h1 h2 => ?_, fun tps v hn1 hn2 h => ?_, fun tps v h => ?_⟩
  · have h100 : ¬ (5 : Rat) > 100 := by norm_num
    have h50 : ¬ (5 : Rat) > 50 := by norm_num
    have h10 : ¬ (5 : Rat) > 10 := by norm_num
    rw [networkHealth, if_neg (fun hc => h100 hc.1),
      if_neg (fun hc => h50 hc.1), if_neg h10]
  · rw [networkHealth, if_pos ⟨h1, h2⟩]
  · rw [networkHealth, if_neg hn, if_pos ⟨h1, h2⟩]
  · rw [networkHealth, if_neg hn1, if_neg hn2, if_pos h]
  · have h100 : ¬ tps > 100 := not_lt.mpr (le_trans h (by norm_num))
    have h50 : ¬ tps > 50 := not_lt.mpr (le_trans h (by norm_num))
    rw [networkHealth, if_neg (fun hc => h100 hc.1),
      if_neg (fun hc => h50 hc.1), if_neg (not_lt.mpr h)]

/-- C9 (witness): the ordered rules applied away from the spec's listed
points. -/
theorem networkHealth_first_match_wins_witness :
    networkHealth 200 2000 = "Healthy" ∧ networkHealth 3 9999 = "Poor" :=
  ⟨networkHealth_first_match_wins.2.2.2.2.1 200 2000 (by decide) (by decide),
   networkHealth_first_match_wins.2.2.2.2.2.2.2 3 9999 (by decide)⟩

/-- C6 (counterexample): at exactly the stored expiry instant the source
still returns the value, because `time.Now().After(entry.ExpiresAt)` is a
strict comparison — the claim instead requires absence whenever the
current time is not before the expiry. With `set` at time 0 and ttl 5,
`get` at time 5 returns the value. -/
theorem cache_expiry_instant_counterexample :
    getFromCache (setCache (emptyCache Nat) 0 ("k") 42 5) 5 ("k") = some 42 ∧
    some 42 ≠ (none : Option Nat) := by decide

/-- C6 (amended): after `setCache key value ttl` at time `now`, a get at
any time up to and including `now + ttl` returns the value (in particular
at any time strictly before `now + ttl`); a get strictly after `now + ttl`
or on a never-set key signals absence; and `setCache` unconditionally
overwrites any existing entry for the key. -/
theorem cache_roundtrip_expiry :
    (∀ (α : Type) (st : CacheState α) (now : Int) (key : String) (v : α)
        (ttl t : Int),
      (t ≤ now + ttl → getFromCache (setCache st now key v ttl) t key = some v) ∧
      (now + ttl < t → getFromCache (setCache st now key v ttl) t key = none)) ∧
    (∀ (α : Type) (t : Int) (key : String),
      getFromCache (emptyCache α) t key = none) ∧
    (∀ (α : Type) (st : CacheState α) (now : Int) (key : String) (v w : α)
        (ttlOld ttl t : Int),
      getFromCache (setCache (setCache st now key w ttlOld) now key v ttl) t key =
        getFromCache (setCache st now key v ttl) t key) := by
  refine ⟨fun α st now key v ttl t => ⟨fun h => ?_, fun h => ?_⟩,
    fun α t key => rfl, fun α st now key v w ttlOld ttl t => ?_⟩
  · simp [getFromCache, setCache, not_lt.mpr h]
  · simp [getFromCache, setCache, h]
  · simp [getFromCache, setCache]

/-- C6 (witness for the amended theorem): a get strictly before expiry,
at expiry, strictly after expiry, and on an untouched key. -/
theorem cache_roundtrip_expiry_witness :
    getFromCache (setCache (emptyCache Nat) 0 ("k") 42 5) 3 ("k") = some 42 ∧
    getFromCache (setCache (emptyCache Nat) 0 ("k") 42 5) 9 ("k") = none ∧
    getFromCache (emptyCache Nat) 3 ("k") = none :=
  ⟨(cache_roundtrip_expiry.1 Nat (emptyCache Nat) 0 ("k") 42 5 3).1 (by decide),
   (cache_roundtrip_expiry.1 Nat (emptyCache Nat) 0 ("k") 42 5 9).2 (by decide),
   cache_roundtrip_expiry.2.1 Nat 3 ("k")⟩

/-- C10 (counterexample): the integer branch succeeds on every in-range
integer, but for `"-10000000000"` the source's
`time.Duration(seconds) * time.Second` multiplication overflows int64 and
wraps to a large positive duration, which the upper clamp then turns into
five minutes — not the non-positive duration `-10000000000` seconds the
claim requires. -/
theorem parseRetryAfter_negative_overflow_counterexample :
    goAtoi ("-10000000000") = some (-10000000000) ∧
    parseRetryAfter noDateParses 0 ("-10000000000") = .ok fiveMinutesNs ∧
    ¬ fiveMinutesNs ≤ 0 := by decide

/-- C10 (amended): for every string parsing as an integer `k ≤ 0` whose
nanosecond conversion does not underflow int64, `parseRetryAfter`
succeeds and returns exactly that non-positive duration: the integer
branch applies only the five-minute upper clamp and, unlike the date
branches, imposes no strictly-positive requirement. -/
theorem parseRetryAfter_nonpositive_integer (parseDate : DateOracle) (now : Int)
    (s : String) (k : Int) (hk : goAtoi s = some k) (hneg : k ≤ 0)
    (hrange : -(2 ^ 63) ≤ k * nsPerSecond) :
    parseRetryAfter parseDate now s = .ok (k * nsPerSecond) ∧
    k * nsPerSecond ≤ 0 := by
  have hle : k * nsPerSecond ≤ 0 := by
    have := mul_le_mul_of_nonneg_right hneg (show (0 : Int) ≤ nsPerSecond by decide)
    simpa using this
  have hwrap : wrap64 (k * nsPerSecond) = k * nsPerSecond := by
    rw [wrap64]
    rw [Int.emod_eq_of_lt (by linarith) (by linarith [hle])]
    ring
  refine ⟨?_, hle⟩
  rw [parseRetryAfter, hk]
  simp only [hwrap]
  rw [if_neg (not_lt.mpr (le_trans hle (by decide)))]

/-- C10 (witness): `"-5"` parses to minus five seconds, a non-positive
success, and `"0"` to zero. -/
theorem parseRetryAfter_nonpositive_integer_witness :
    (parseRetryAfter noDateParses 0 ("-5") = .ok ((-5) * nsPerSecond) ∧
      (-5 : Int) * nsPerSecond ≤ 0) ∧
    (parseRetryAfter noDateParses 0 ("0") = .ok (0 * nsPerSecond) ∧
      (0 : Int) * nsPerSecond ≤ 0) :=
  ⟨parseRetryAfter_nonpositive_integer noDateParses 0 ("-5") (-5) (by decide)
      (by decide) (by decide),
   parseRetryAfter_nonpositive_integer noDateParses 0 ("0") 0 (by decide)
      (by decide) (by decide)⟩

/-- When no fallback layout parses the string, the fallback loop fails
with the source's error message. -/
lemma tryFormats_all_none (parseDate : DateOracle) (now : Int) (s : String)
    (fmts : List DateFormat) (h : ∀ f ∈ fmts, parseDate f s = none) :
    tryFormats parseDate now s fmts =
      .error ("unable to parse Retry-After header: " ++ s) := by
  induction fmts with
  | nil => rfl
  | cons f rest ih =>
    rw [tryFormats, h f (List.mem_cons_self f rest)]
    exact ih fun g hg => h g (List.mem_cons_of_mem f hg)

/-- A date oracle that parses one fixed string under `time.RFC1123` to a
fixed past instant and parses nothing else. -/
def oracleRFCPast : DateOracle := fun f s =>
  if f = .rfc1123 ∧ s = "past" then some (-7) else none

/-- A date oracle that parses one fixed string under `time.RFC1123` to
one minute after time zero and parses nothing else. -/
def oracleRFCFuture : DateOracle := fun f s =>
  if f = .rfc1123 ∧ s = "future" then some (60 * nsPerSecond) else none

/-- C3: `parseRetryAfter` tries a plain integer first (clamped to at most
five minutes, winning over any date interpretation), then the primary
`time.RFC1123` layout (its in-range parse winning over the fallbacks),
then the fallback layouts, a date accepted only when the wait is strictly
positive and at most five minutes; `"120"` yields 120 seconds, `"400"`
clamps to five minutes, a parseable but already-past date falls through
and — when nothing else parses — ends in the parse error, as does a
completely unparseable string. -/
theorem parseRetryAfter_order_and_acceptance :
    (∀ (parseDate : DateOracle) (now : Int),
      parseRetryAfter parseDate now ("120") = .ok (120 * nsPerSecond)) ∧
    (∀ (parseDate : DateOracle) (now : Int),
      parseRetryAfter parseDate now ("400") = .ok fiveMinutesNs) ∧
    (∀ (parseDate : DateOracle) (now : Int) (s : String) (k : Int),
      goAtoi s = some k →
      ∃ d : Int, parseRetryAfter parseDate now s = .ok d ∧ d ≤ fiveMinutesNs) ∧
    (∀ (parseDate : DateOracle) (now : Int) (s : String) (t : Int),
      goAtoi s = none → parseDate .rfc1123 s = some t → 0 < t - now →
      t - now ≤ fiveMinutesNs →
      parseRetryAfter parseDate now s = .ok (t - now)) ∧
    (∀ (parseDate : DateOracle) (now : Int) (s : String) (t : Int),
      goAtoi s = none → parseDate .rfc1123 s = some t → t - now ≤ 0 →
      (∀ f ∈ fallbackFormats, parseDate f s = none) →
      parseRetryAfter parseDate now s =
        .error ("unable to parse Retry-After header: " ++ s)) ∧
    (∀ (parseDate : DateOracle) (now : Int) (s : String),
      goAtoi s = none → (∀ f, parseDate f s = none) →
      parseRetryAfter parseDate now s =
        .error ("unable to parse Retry-After header: " ++ s)) := by
  refine ⟨fun parseDate now => ?_, fun parseDate now => ?_,
    fun parseDate now s k hk => ?_, fun parseDate now s t ha ht h1 h2 => ?_,
    fun parseDate now s t ha ht hpast hfb => ?_, fun parseDate now s ha hall => ?_⟩
  · rw [parseRetryAfter, show goAtoi ("120") = some 120 by decide]
    simp only []
    rw [if_neg (by decide), show wrap64 (120 * nsPerSecond) = 120 * nsPerSecond
      by decide]
  · rw [parseRetryAfter, show goAtoi ("400") = some 400 by decide]
    simp only []
    rw [if_pos (by decide)]
  · rw [parseRetryAfter, hk]
    simp only []
    by_cases hcl : wrap64 (k * nsPerSecond) > fiveMinutesNs
    · rw [if_pos hcl]
      exact ⟨fiveMinutesNs, rfl, le_refl _⟩
    · rw [if_neg hcl]
      exact ⟨wrap64 (k * nsPerSecond), rfl, not_lt.mp hcl⟩
  · rw [parseRetryAfter, ha, ht]
    simp only []
    rw [if_pos ⟨h1, h2⟩]
  · rw [parseRetryAfter, ha, ht]
    simp only []
    rw [if_neg (fun hc => absurd hc.1 (not_lt.mpr hpast))]
    exact tryFormats_all_none parseDate now s fallbackFormats hfb
  · rw [parseRetryAfter, ha, hall .rfc1123]
    exact tryFormats_all_none parseDate now s fallbackFormats fun f _ => hall f

/-- C3 (witness): each branch exercised at a concrete input — the integer
clamp, the accepted primary date, the rejected past date and the fully
unparseable string. -/
theorem parseRetryAfter_order_and_acceptance_witness :
    parseRetryAfter noDateParses 0 ("120") = .ok (120 * nsPerSecond) ∧
    parseRetryAfter noDateParses 0 ("400") = .ok fiveMinutesNs ∧
    (∃ d : Int, parseRetryAfter noDateParses 0 ("7") = .ok d ∧
      d ≤ fiveMinutesNs) ∧
    parseRetryAfter oracleRFCFuture 0 ("future") =
      .ok (60 * nsPerSecond - 0) ∧
    parseRetryAfter oracleRFCPast 0 ("past") =
      .error ("unable to parse Retry-After header: " ++ "past") ∧
    parseRetryAfter noDateParses 0 ("nonsense") =
      .error ("unable to parse Retry-After header: " ++ "nonsense") :=
  ⟨parseRetryAfter_order_and_acceptance.1 noDateParses 0,
   parseRetryAfter_order_and_acceptance.2.1 noDateParses 0,
   parseRetryAfter_order_and_acceptance.2.2.1 noDateParses 0 ("7") 7 (by decide),
   parseRetryAfter_order_and_acceptance.2.2.2.1 oracleRFCFuture 0 ("future")
     (60 * nsPerSecond) (by decide) (by decide) (by decide) (by decide),
   parseRetryAfter_order_and_acceptance.2.2.2.2.1 oracleRFCPast 0 ("past")
     (-7) (by decide) (by decide) (by decide) (by decide),
   parseRetryAfter_order_and_acceptance.2.2.2.2.2 noDateParses 0 ("nonsense")
     (by decide) (fun f => rfl)⟩

/-- One estimator run either leaves the state untouched or publishes a
block time inside the plausibility band. -/
lemma updateBlockTime_id_or_band (st : BTState) (smp : SlotSample) :
    updateBlockTimeInBackground st smp = st ∨
    plausibleBand (updateBlockTimeInBackground st smp).lastBlockTime := by
  cases hf : smp.firstSlot with
  | none => rw [updateBlockTimeInBackground, hf]; exact Or.inl rfl
  | some currentSlot =>
    cases hs : smp.secondSlot with
    | none => simp only [updateBlockTimeInBackground, hf, hs]; exact Or.inl trivial
    | some laterSlot =>
      simp only [updateBlockTimeInBackground, hf, hs]
      by_cases hle : laterSlot ≤ currentSlot
      · rw [if_pos hle]; exact Or.inl rfl
      · rw [if_neg hle]
        by_cases hband :
            plausibleBand (3 / ((laterSlot - currentSlot : Nat) : Rat))
        · rw [if_pos hband]; exact Or.inr hband
        · rw [if_neg hband]; exact Or.inl rfl

/-- A state whose block time is in the band keeps that property across
any estimator run. -/
lemma updateBlockTime_preserves_band (st : BTState) (smp : SlotSample)
    (h : plausibleBand st.lastBlockTime) :
    plausibleBand (updateBlockTimeInBackground st smp).lastBlockTime := by
  rcases updateBlockTime_id_or_band st smp with heq | hband
  · rw [heq]; exact h
  · exact hband

/-- C7: starting from the constructor's 0.4 seconds, the published block
time stays inside the band `[0.1, 2.0]` across any sequence of estimator
runs; a run whose second height does not advance past the first, or whose
computed seconds-per-block falls outside the band, leaves both
`lastBlockTime` and `lastBlockTimeCheck` unchanged; and every run either
changes nothing or publishes an in-band value. -/
theorem blockTime_plausibility_invariant :
    (∀ runs : List SlotSample,
      plausibleBand
        ((runs.foldl updateBlockTimeInBackground
          initialBlockTimeState).lastBlockTime)) ∧
    (∀ (st : BTState) (smp : SlotSample) (c l : Nat),
      smp.firstSlot = some c → smp.secondSlot = some l → l ≤ c →
      updateBlockTimeInBackground st smp = st) ∧
    (∀ (st : BTState) (smp : SlotSample) (c l : Nat),
      smp.firstSlot = some c → smp.secondSlot = some l → c < l →
      ¬ plausibleBand (3 / ((l - c : Nat) : Rat)) →
      updateBlockTimeInBackground st smp = st) ∧
    (∀ (st : BTState) (smp : SlotSample),
      updateBlockTimeInBackground st smp = st ∨
      plausibleBand (updateBlockTimeInBackground st smp).lastBlockTime) := by
  have hfold : ∀ (runs : List SlotSample) (st : BTState),
      plausibleBand st.lastBlockTime →
      plausibleBand ((runs.foldl updateBlockTimeInBackground st).lastBlockTime) := by
    intro runs
    induction runs with
    | nil => intro st h; exact h
    | cons smp rest ih =>
      intro st h
      exact ih _ (updateBlockTime_preserves_band st smp h)
  refine ⟨fun runs => hfold runs initialBlockTimeState
      (by norm_num [initialBlockTimeState, plausibleBand]),
    fun st smp c l hc hl hle => ?_, fun st smp c l hc hl hlt hband => ?_,
    updateBlockTime_id_or_band⟩
  · simp only [updateBlockTimeInBackground, hc, hl]
    rw [if_pos hle]
  · simp only [updateBlockTimeInBackground, hc, hl]
    rw [if_neg (not_le.mpr hlt), if_neg hband]

/-- C7 (witness): the empty and a one-run history stay in band; a
non-advancing height pair and an out-of-band sample (one slot in three
seconds, 3.0 s/block) both leave the initial state untouched. -/
theorem blockTime_plausibility_invariant_witness :
    plausibleBand
      (([⟨some 5, some 20, 9⟩] : List SlotSample).foldl
        updateBlockTimeInBackground initialBlockTimeState).lastBlockTime ∧
    updateBlockTimeInBackground initialBlockTimeState ⟨some 5, some 5, 9⟩ =
      initialBlockTimeState ∧
    updateBlockTimeInBackground initialBlockTimeState ⟨some 0, some 1, 7⟩ =
      initialBlockTimeState :=
  ⟨blockTime_plausibility_invariant.1 [⟨some 5, some 20, 9⟩],
   blockTime_plausibility_invariant.2.1 initialBlockTimeState
     ⟨some 5, some 5, 9⟩ 5 5 rfl rfl (by decide),
   blockTime_plausibility_invariant.2.2.1 initialBlockTimeState
     ⟨some 0, some 1, 7⟩ 0 1 rfl rfl (by decide)
     (by norm_num [plausibleBand])⟩

/-- Every executed loop iteration — rate-limited or dispatching —
consumes one unit of fuel, so the two event counts together never exceed
the fuel. -/
lemma retryAux_budget (fuel : Nat) :
    ∀ (attempt : Nat) (parseDate : DateOracle) (now : Int) (env : RetryEnv),
      dispatchCount (retryAux parseDate now env fuel attempt).2 +
        rateLimitSkipCount (retryAux parseDate now env fuel attempt).2 ≤ fuel := by
  induction fuel with
  | zero =>
    intro attempt pd now env
    simp [retryAux, dispatchCount, rateLimitSkipCount]
  | succ n ih =>
    intro attempt pd now env
    have h := ih (attempt + 1) pd now env
    simp only [dispatchCount, rateLimitSkipCount] at h
    simp only [retryAux]
    cases henv : env attempt with
    | blocked =>
      simp [dispatchCount, rateLimitSkipCount, List.countP_cons,
        isDispatchEvent, isRateLimitSleepEvent]
      omega
    | dispatched outcome =>
      cases outcome with
      | failure msg =>
        by_cases hlast : attempt = maxRetries - 1 <;>
          simp [hlast, dispatchCount, rateLimitSkipCount, List.countP_cons,
            isDispatchEvent, isRateLimitSleepEvent] <;>
          omega
      | response resp =>
        by_cases h429 : is429 resp <;>
          by_cases hlast : attempt = maxRetries - 1 <;>
          simp [h429, hlast, dispatchCount, rateLimitSkipCount,
            List.countP_cons, isDispatchEvent, isRateLimitSleepEvent] <;>
          omega

/-- When the rate limiter blocks every inspected iteration, the loop
spins through its whole fuel without dispatching and falls off with the
final error. -/
lemma retryAux_all_blocked (fuel : Nat) :
    ∀ (attempt : Nat) (parseDate : DateOracle) (now : Int) (env : RetryEnv),
      (∀ i, attempt ≤ i → i < attempt + fuel → env i = .blocked) →
      (retryAux parseDate now env fuel attempt).1 = .maxRetriesExceeded ∧
      dispatchCount (retryAux parseDate now env fuel attempt).2 = 0 := by
  induction fuel with
  | zero => intro attempt pd now env h; exact ⟨rfl, rfl⟩
  | succ n ih =>
    intro attempt pd now env h
    have hb : env attempt = .blocked := h attempt (le_refl attempt) (by omega)
    have hrec := ih (attempt + 1) pd now env fun i h1 h2 => h i (by omega) (by omega)
    simp only [retryAux, hb]
    simp [dispatchCount, List.countP_cons, isDispatchEvent] at hrec ⊢
    exact hrec

/-- C1 (counterexample): with the first iteration rate-limited and every
later one a transport failure, only two dispatches happen before the
final error — the rate-limited iteration consumed one of the 3 attempt
slots, where the claim would leave all 3 for dispatching. -/
theorem rateLimit_skip_consumes_attempt_counterexample :
    (makeRPCCallWithRetry noDateParses 0 envBlockedThenFailures).1 =
      .transportFailure ("boom") ∧
    dispatchCount (makeRPCCallWithRetry noDateParses 0 envBlockedThenFailures).2 = 2 ∧
    rateLimitSkipCount
      (makeRPCCallWithRetry noDateParses 0 envBlockedThenFailures).2 = 1 ∧
    (2 : Nat) ≠ 3 := by decide

/-- C1 (amended): a rate-limited iteration sleeps the fixed 2-second
cooldown and moves on, but — Go's `continue` running the loop's post
statement — it consumes an attempt slot exactly like a dispatching
iteration: dispatches plus rate-limit skips never exceed the budget of 3,
and an execution whose first 3 iterations are all rate-limited dispatches
nothing and returns the max-retries-exceeded error. -/
theorem retry_budget_counts_all_iterations :
    (∀ (parseDate : DateOracle) (now : Int) (env : RetryEnv),
      dispatchCount (makeRPCCallWithRetry parseDate now env).2 +
        rateLimitSkipCount (makeRPCCallWithRetry parseDate now env).2 ≤
          maxRetries) ∧
    (∀ (parseDate : DateOracle) (now : Int) (env : RetryEnv),
      (∀ i, i < maxRetries → env i = .blocked) →
      (makeRPCCallWithRetry parseDate now env).1 = .maxRetriesExceeded ∧
      dispatchCount (makeRPCCallWithRetry parseDate now env).2 = 0) :=
  ⟨fun parseDate now env => retryAux_budget maxRetries 0 parseDate now env,
   fun parseDate now env h =>
     retryAux_all_blocked maxRetries 0 parseDate now env
       fun i _ h2 => h i (by omega)⟩

/-- C1 (witness for the amended theorem): the all-blocked environment
exhausts the budget with zero dispatches. -/
theorem retry_budget_counts_all_iterations_witness :
    dispatchCount (makeRPCCallWithRetry noDateParses 0 envAllBlocked).2 +
      rateLimitSkipCount (makeRPCCallWithRetry noDateParses 0 envAllBlocked).2 ≤
        maxRetries ∧
    (makeRPCCallWithRetry noDateParses 0 envAllBlocked).1 =
      .maxRetriesExceeded ∧
    dispatchCount (makeRPCCallWithRetry noDateParses 0 envAllBlocked).2 = 0 :=
  ⟨retry_budget_counts_all_iterations.1 noDateParses 0 envAllBlocked,
   retry_budget_counts_all_iterations.2 noDateParses 0 envAllBlocked
     fun _ _ => rfl⟩

/-- Environment whose every iteration dispatches and fails at transport
level. -/
def envAllFailures : RetryEnv := fun _ => .dispatched (.failure ("boom"))

/-- Environment whose every iteration dispatches and receives a 429
JSON-RPC error without a `retryAfter` hint. -/
def envAll429 : RetryEnv := fun _ => .dispatched (.response resp429noHint)

/-- C4: exhaustion modes are distinguishable — when all three permitted
attempts dispatch and fail at transport level the call returns the last
transport error (no response), whereas when all three dispatch and
receive a JSON-RPC 429 error the final attempt's response is returned as
data with no error; the two results are distinct constructors of
`RetryResult`. -/
theorem retry_exhaustion_modes :
    (∀ (parseDate : DateOracle) (now : Int) (env : RetryEnv) (e0 e1 e2 : String),
      env 0 = .dispatched (.failure e0) → env 1 = .dispatched (.failure e1) →
      env 2 = .dispatched (.failure e2) →
      (makeRPCCallWithRetry parseDate now env).1 = .transportFailure e2) ∧
    (∀ (parseDate : DateOracle) (now : Int) (env : RetryEnv)
        (r0 r1 r2 : RPCResponse),
      env 0 = .dispatched (.response r0) → env 1 = .dispatched (.response r1) →
      env 2 = .dispatched (.response r2) →
      is429 r0 = true → is429 r1 = true → is429 r2 = true →
      (makeRPCCallWithRetry parseDate now env).1 = .success r2) ∧
    (∀ (msg : String) (resp : RPCResponse),
      RetryResult.transportFailure msg ≠ RetryResult.success resp) := by
  refine ⟨fun parseDate now env e0 e1 e2 h0 h1 h2 => ?_,
    fun parseDate now env r0 r1 r2 h0 h1 h2 hr0 hr1 hr2 => ?_,
    fun msg resp h => RetryResult.noConfusion h⟩
  · simp [makeRPCCallWithRetry, maxRetries, retryAux, h0, h1, h2]
  · simp [makeRPCCallWithRetry, maxRetries, retryAux, h0, h1, h2, hr0, hr1, hr2]

/-- C4 (witness): three transport failures give the transport error;
three hintless 429 responses give back the last 429 response. -/
theorem retry_exhaustion_modes_witness :
    (makeRPCCallWithRetry noDateParses 0 envAllFailures).1 =
      .transportFailure ("boom") ∧
    (makeRPCCallWithRetry noDateParses 0 envAll429).1 =
      .success resp429noHint :=
  ⟨retry_exhaustion_modes.1 noDateParses 0 envAllFailures
      ("boom") ("boom") ("boom") rfl rfl rfl,
   retry_exhaustion_modes.2.1 noDateParses 0 envAll429
      resp429noHint resp429noHint resp429noHint rfl rfl rfl
      (by decide) (by decide) (by decide)⟩

/-- C5: at every attempt index with retries remaining, the exponential
backoff slept after a hintless (or unparseable-hint) 429 uses exponent
`attempt + 1` and is strictly longer than the transport-failure backoff
with exponent `attempt` at the same index; the two full traces — all
iterations 429 without hint versus all iterations transport failures —
sleep `expBackoffNs 1, expBackoffNs 2` and `expBackoffNs 0, expBackoffNs 1`
respectively. -/
theorem backoff_429_exceeds_transport :
    (∀ i : Nat, i + 1 < maxRetries → expBackoffNs (i + 1) > expBackoffNs i) ∧
    (∀ (parseDate : DateOracle) (now : Int) (env : RetryEnv),
      (∀ i, env i = .dispatched (.response resp429noHint)) →
      (makeRPCCallWithRetry parseDate now env).2 =
        [.dispatch, .backoffSleep (expBackoffNs 1), .dispatch,
         .backoffSleep (expBackoffNs 2), .dispatch]) ∧
    (∀ (parseDate : DateOracle) (now : Int) (env : RetryEnv) (e : String),
      (∀ i, env i = .dispatched (.failure e)) →
      (makeRPCCallWithRetry parseDate now env).2 =
        [.dispatch, .backoffSleep (expBackoffNs 0), .dispatch,
         .backoffSleep (expBackoffNs 1), .dispatch]) := by
  refine ⟨fun i _ => ?_, fun parseDate now env h => ?_,
    fun parseDate now env e h => ?_⟩
  · have hpos : (0 : Int) < baseDelayNs := by decide
    have hlt : (2 : Int) ^ i < 2 ^ (i + 1) := by
      rw [pow_succ]
      nlinarith [pow_pos (show (0 : Int) < 2 by norm_num) i]
    exact mul_lt_mul_of_pos_left hlt hpos
  · simp [makeRPCCallWithRetry, maxRetries, retryAux, h 0, h 1, h 2,
      is429, resp429noHint, retryAfterHint]
  · simp [makeRPCCallWithRetry, maxRetries, retryAux, h 0, h 1, h 2]

/-- C5 (witness): at the first attempt index the 429 backoff is strictly
longer, and both concrete traces are produced. -/
theorem backoff_429_exceeds_transport_witness :
    expBackoffNs 1 > expBackoffNs 0 ∧
    (makeRPCCallWithRetry noDateParses 0 envAll429).2 =
      [.dispatch, .backoffSleep (expBackoffNs 1), .dispatch,
       .backoffSleep (expBackoffNs 2), .dispatch] ∧
    (makeRPCCallWithRetry noDateParses 0 envAllFailures).2 =
      [.dispatch, .backoffSleep (expBackoffNs 0), .dispatch,
       .backoffSleep (expBackoffNs 1), .dispatch] :=
  ⟨backoff_429_exceeds_transport.1 0 (by decide),
   backoff_429_exceeds_transport.2.1 noDateParses 0 envAll429 fun i => rfl,
   backoff_429_exceeds_transport.2.2 noDateParses 0 envAllFailures ("boom")
     fun i => rfl⟩

end SolGOGO
